import Mathlib

/-!
Verification of the RMAP client scripts (`fixed_rmap_client.py`,
`rmap_client_test.py`, `rmap_client_pdf_getting.py`, `test_group_rmap.py`).

The development shallowly embeds the protocol-relevant parts of the four
scripts:

* JSON values are modelled by `JVal` / `JObj` (flat mappings with string and
  arbitrary-precision integer values — the only shapes the protocol ever
  serializes).  `dumps` models
  `json.dumps(obj, separators=(",", ":"), sort_keys=True)` on such mappings
  whose strings are printable ASCII without `"` or `\` (so no escaping is
  produced); `loads` models `json.loads` restricted to that canonical output.
* `b64encode` / `b64decode` model `base64.b64encode` / `base64.b64decode`
  on well-formed input.
* The PGP primitives (`PGPMessage.new` + `PGPKey.encrypt` + armoring, and
  `PGPMessage.from_blob` + `PGPKey.decrypt`) are external library calls and
  appear as function parameters; passphrase-based unlocking is modelled by an
  explicit `KeyState`.
* The `main` drivers of `fixed_rmap_client.py` and
  `rmap_client_pdf_getting.py` are modelled as pure functions from an
  environment (server responses, key configuration) to a run result that
  records the outcome, the objects sealed, the network requests issued and
  the bytes persisted.
-/

/-- A JSON value as used by the protocol messages: a string or an
(arbitrary-precision, as in Python) integer. -/
inductive JVal : Type
  | str (s : String)
  | int (i : Int)
  deriving DecidableEq, Repr

/-- A JSON object: a finite list of key/value pairs (a Python `dict` has
no duplicate keys; theorems that need this carry a `Nodup` hypothesis). -/
abbrev JObj := List (String × JVal)

/-- `obj.get(k)` / `obj[k]`-style lookup. -/
def lookupJ (m : JObj) (k : String) : Option JVal :=
  match m with
  | [] => none
  | (k', v) :: rest => if k' = k then some v else lookupJ rest k

/-- Python `==` between `obj.get(key)` (possibly absent) and a nonneg int:
`None != n` and `str != int` are both true in Python. -/
def pyEqInt (v : Option JVal) (n : Nat) : Bool :=
  match v with
  | some (JVal.int i) => i == (n : Int)
  | _ => false

/-- Two objects are equal as Python dicts (`==` ignores entry order). -/
def EqDict (a b : JObj) : Prop := ∀ k, lookupJ a k = lookupJ b k

/-- The decimal digit character for `d < 10`. -/
def digitChar (d : Nat) : Char := Char.ofNat (48 + d)

/-- Least-significant-first decimal digits of `n`, with explicit fuel
(`fuel ≥ n` suffices). -/
def natRevDigits : Nat → Nat → List Nat
  | 0, _ => []
  | fuel + 1, n => if n = 0 then [] else n % 10 :: natRevDigits fuel (n / 10)

/-- Decimal representation of a natural number, as Python `repr` writes it. -/
def natRepr (n : Nat) : List Char :=
  if n = 0 then ['0'] else ((natRevDigits n n).reverse).map digitChar

/-- Decimal representation of a Python integer (leading `-` when negative). -/
def intRepr (i : Int) : List Char :=
  if i < 0 then '-' :: natRepr i.natAbs else natRepr i.natAbs

/-- Characters that `json.dumps` emits verbatim inside a string literal:
printable ASCII other than `"` and `\` (anything else would be escaped; the
protocol never produces such strings). -/
def wfChar (c : Char) : Bool :=
  decide (32 ≤ c.toNat) && decide (c.toNat < 127) && !(c = '"') && !(c = '\\')

/-- A string the canonical serializer emits verbatim. -/
def wfString (s : String) : Bool := s.data.all wfChar

/-- Well-formedness of a JSON value for the canonical serializer. -/
def wfVal : JVal → Bool
  | JVal.str s => wfString s
  | JVal.int _ => true

/-- Well-formedness of a JSON object for the canonical serializer. -/
def wfObj (m : JObj) : Bool := m.all (fun p => wfString p.1 && wfVal p.2)

/-- `sort_keys=True`: entries ordered by key (Python compares the
`(key, value)` tuples, but with distinct keys only keys are compared). -/
def sortKeys (m : JObj) : JObj :=
  List.insertionSort (fun p q : String × JVal => p.1 ≤ q.1) m

/-- Render a JSON string literal (no escaping needed on `wfString` input). -/
def renderStr (s : String) : List Char := '"' :: (s.data ++ ['"'])

/-- Render a JSON value. -/
def renderVal : JVal → List Char
  | JVal.str s => renderStr s
  | JVal.int i => intRepr i

/-- Render the members of an object with `separators=(",", ":")`. -/
def renderMembers : List (String × JVal) → List Char
  | [] => []
  | [(k, v)] => renderStr k ++ ':' :: renderVal v
  | (k, v) :: rest => renderStr k ++ ':' :: (renderVal v ++ ',' :: renderMembers rest)

/-- Render a whole object, braces included. -/
def render (ms : JObj) : List Char := '{' :: (renderMembers ms ++ ['}'])

/-- `json.dumps(obj, separators=(",", ":"), sort_keys=True)`. -/
def dumps (m : JObj) : String := ⟨render (sortKeys m)⟩

/-- Scan a string literal body up to the closing quote. -/
def scanStr : List Char → Option (List Char × List Char)
  | [] => none
  | c :: rest =>
    if c = '"' then some ([], rest)
    else (scanStr rest).map (fun p => (c :: p.1, p.2))

/-- Parse a JSON string literal. -/
def parseStringLit (s : List Char) : Option (String × List Char) :=
  match s with
  | [] => none
  | c :: rest =>
    if c = '"' then (scanStr rest).map (fun p => (⟨p.1⟩, p.2)) else none

/-- Split off a maximal run of decimal digits. -/
def scanDigits : List Char → List Char × List Char
  | [] => ([], [])
  | c :: rest =>
    if c.isDigit then
      let p := scanDigits rest
      (c :: p.1, p.2)
    else ([], c :: rest)

/-- Numeric value of a digit run (most significant first). -/
def digitsVal (ds : List Char) : Nat :=
  ds.foldl (fun a c => a * 10 + (c.toNat - 48)) 0

/-- Parse a JSON value (string literal or decimal integer). -/
def parseVal (s : List Char) : Option (JVal × List Char) :=
  match s with
  | [] => none
  | c :: rest =>
    if c = '"' then (scanStr rest).map (fun p => (JVal.str ⟨p.1⟩, p.2))
    else if c = '-' then
      let p := scanDigits rest
      if p.1.isEmpty then none else some (JVal.int (-(digitsVal p.1 : Int)), p.2)
    else if c.isDigit then
      let p := scanDigits (c :: rest)
      some (JVal.int ((digitsVal p.1 : Int)), p.2)
    else none

/-- Parse the members of an object after the opening brace, consuming the
closing brace; `fuel` bounds the number of members. -/
def parseMembers : Nat → List Char → Option (List (String × JVal) × List Char)
  | 0, _ => none
  | fuel + 1, s =>
    match parseStringLit s with
    | none => none
    | some (k, s1) =>
      match s1 with
      | [] => none
      | c :: s2 =>
        if c = ':' then
          match parseVal s2 with
          | none => none
          | some (v, s3) =>
            match s3 with
            | [] => none
            | c2 :: s4 =>
              if c2 = ',' then
                match parseMembers fuel s4 with
                | none => none
                | some (kvs, r) => some ((k, v) :: kvs, r)
              else if c2 = '}' then some ([(k, v)], s4)
              else none
        else none

/-- Parse a JSON object. -/
def parseObj (s : List Char) : Option (JObj × List Char) :=
  match s with
  | [] => none
  | c :: rest =>
    if c = '{' then
      match rest with
      | [] => none
      | c2 :: rest2 =>
        if c2 = '}' then some ([], rest2) else parseMembers rest.length rest
    else none

/-- `json.loads` restricted to the canonical object grammar the peer's
plaintext uses (the whole input must be consumed). -/
def loads (s : String) : Option JObj :=
  match parseObj s.data with
  | some (o, []) => some o
  | _ => none

/-- The base64 alphabet. -/
def b64Alphabet : List Char :=
  "ABCDEFGHIJKLMNOPQRSTUVWXYZabcdefghijklmnopqrstuvwxyz0123456789+/".data

/-- Character for a 6-bit group. -/
def encChar (n : Nat) : Char := b64Alphabet.getD n 'A'

/-- 6-bit group for an alphabet character (`none` off the alphabet). -/
def decChar (c : Char) : Option Nat := b64Alphabet.indexOf? c

/-- `base64.b64encode` on a byte list. -/
def b64encode : List Nat → List Char
  | [] => []
  | [a] => [encChar (a / 4), encChar (a % 4 * 16), '=', '=']
  | [a, b] => [encChar (a / 4), encChar (a % 4 * 16 + b / 16), encChar (b % 16 * 4), '=']
  | a :: b :: c :: rest =>
    encChar (a / 4) :: encChar (a % 4 * 16 + b / 16) ::
      encChar (b % 16 * 4 + c / 64) :: encChar (c % 64) :: b64encode rest

/-- `base64.b64decode` on the output format of `b64encode` (strict: the
grammar a well-formed encoder emits; the scripts only ever feed it data the
peer produced with the same pipeline). -/
def b64decode : List Char → Option (List Nat)
  | [] => some []
  | c0 :: c1 :: c2 :: c3 :: rest =>
    match decChar c0, decChar c1 with
    | some s0, some s1 =>
      if c2 = '=' then
        if c3 = '=' ∧ rest = [] then some [s0 * 4 + s1 / 16] else none
      else
        match decChar c2 with
        | some s2 =>
          if c3 = '=' then
            if rest = [] then some [s0 * 4 + s1 / 16, s1 % 16 * 16 + s2 / 4]
            else none
          else
            match decChar c3 with
            | some s3 =>
              (b64decode rest).map
                (fun tl => (s0 * 4 + s1 / 16) :: (s1 % 16 * 16 + s2 / 4) ::
                  (s2 % 4 * 64 + s3) :: tl)
            | none => none
        | none => none
    | _, _ => none
  | _ => none

/-- `str.encode()` on the ASCII strings produced by PGP armoring (UTF-8 and
code points coincide below 128). -/
def encodeAscii (s : String) : List Nat := s.data.map Char.toNat

/-- `bytes.decode()` for ASCII byte lists. -/
def decodeAscii (bs : List Nat) : String := ⟨bs.map Char.ofNat⟩

/-- `base64.b64encode(x).decode()`. -/
def b64encodeStr (bs : List Nat) : String := ⟨b64encode bs⟩

/-- `base64.b64decode(s)`. -/
def b64decodeStr (s : String) : Option (List Nat) := b64decode s.data

/-- The lock state of a passphrase-protected private key handle
(`PGPKey.is_protected` / transient unlocking via `PGPKey.unlock`). -/
structure KeyState : Type where
  isProt : Bool
  locked : Bool
  deriving DecidableEq, Repr

/-- Outcome of a decrypt call (Python exceptions become error values;
`sysexit` is the uncatchable `SystemExit`). -/
inductive DecOutcome : Type
  | sysexit
  | unlockErr
  | formatErr
  | decErr
  | ok (o : JObj)
  deriving DecidableEq, Repr

namespace FixedRmapClient

/-- `fixed_rmap_client.encrypt_to_server`: canonical-JSON dump, PGP encrypt
to the server key plus armoring (the external `PGPMessage.new` /
`PGPKey.encrypt` / `str` pipeline is the parameter `pgpEncryptArmor`,
closed over the recipient public key), then base64 of the armored text. -/
def encrypt_to_server (pgpEncryptArmor : String → String) (obj : JObj) : String :=
  let plaintext := dumps obj
  let armored := pgpEncryptArmor plaintext
  b64encodeStr (encodeAscii armored)

/-- `fixed_rmap_client.decrypt_from_server`: base64-decode, parse the blob
(`PGPMessage.from_blob`, success modelled by `fromBlobOk`), `SystemExit`
when the key is protected and no passphrase is configured, transient unlock
(`passOk` models whether `unlock` accepts the configured passphrase),
decrypt (`pgpDecryptArmor`, closed over the private key), `json.loads`.
The second component is the key state after the call. -/
def decrypt_from_server (fromBlobOk : List Nat → Bool)
    (pgpDecryptArmor : List Nat → Option String) (key : KeyState)
    (passphrase : Option String) (passOk : Bool) (payload_b64 : String) :
    DecOutcome × KeyState :=
  match b64decodeStr payload_b64 with
  | none => (DecOutcome.formatErr, key)
  | some blob =>
    if fromBlobOk blob = false then (DecOutcome.formatErr, key)
    else if key.isProt && passphrase.isNone then (DecOutcome.sysexit, key)
    else if key.isProt then
      if passOk = false then (DecOutcome.unlockErr, key)
      else
        match pgpDecryptArmor blob with
        | none => (DecOutcome.decErr, { key with locked := true })
        | some plaintext =>
          match loads plaintext with
          | none => (DecOutcome.decErr, { key with locked := true })
          | some o => (DecOutcome.ok o, { key with locked := true })
    else
      match pgpDecryptArmor blob with
      | none => (DecOutcome.decErr, key)
      | some plaintext =>
        match loads plaintext with
        | none => (DecOutcome.decErr, key)
        | some o => (DecOutcome.ok o, key)

end FixedRmapClient

namespace RmapClientTest

/-- `rmap_client_test.encrypt_to_server`: identical pipeline to
`fixed_rmap_client.encrypt_to_server` (module-level `server_pub_key`
closure instead of an argument). -/
def encrypt_to_server (pgpEncryptArmor : String → String) (obj : JObj) : String :=
  let plaintext := dumps obj
  let armored := pgpEncryptArmor plaintext
  b64encodeStr (encodeAscii armored)

end RmapClientTest

namespace RmapClientPdfGetting

/-- `WorkingIdentityManager.encrypt_for_server`. -/
def encrypt_for_server (pgpEncryptArmor : String → String) (obj : JObj) : String :=
  let msg := dumps obj
  let armored := pgpEncryptArmor msg
  b64encodeStr (encodeAscii armored)

/-- `WorkingIdentityManager.decrypt_for_client`: base64-decode, parse blob,
then `with self.client_priv.unlock(self.passphrase)` (unconditional —
unlock failure raises), decrypt and `json.loads` inside the `with` block;
the context manager relocks on every exit path. -/
def decrypt_for_client (fromBlobOk : List Nat → Bool)
    (pgpDecryptArmor : List Nat → Option String) (key : KeyState)
    (passOk : Bool) (b64msg : String) : DecOutcome × KeyState :=
  match b64decodeStr b64msg with
  | none => (DecOutcome.formatErr, key)
  | some blob =>
    if fromBlobOk blob = false then (DecOutcome.formatErr, key)
    else if passOk = false then (DecOutcome.unlockErr, key)
    else
      match pgpDecryptArmor blob with
      | none => (DecOutcome.decErr, { key with locked := true })
      | some plaintext =>
        match loads plaintext with
        | none => (DecOutcome.decErr, { key with locked := true })
        | some o => (DecOutcome.ok o, { key with locked := true })

end RmapClientPdfGetting

namespace TestGroupRmap

/-- `SimpleRMAPClient.encrypt_to_target`. -/
def encrypt_to_target (pgpEncryptArmor : String → String) (data : JObj) : String :=
  let msg := dumps data
  b64encodeStr (encodeAscii (pgpEncryptArmor msg))

end TestGroupRmap

/-- Python `int(s)` on a string: optional sign then decimal digits
(whitespace/underscore tolerance of CPython is irrelevant to the wire
values and omitted). `none` models the `ValueError`. -/
def pyIntOfString (s : String) : Option Int :=
  match s.data with
  | [] => none
  | '-' :: ds =>
    if ds ≠ [] ∧ ds.all Char.isDigit then some (-(digitsVal ds : Int)) else none
  | '+' :: ds =>
    if ds ≠ [] ∧ ds.all Char.isDigit then some ((digitsVal ds : Int)) else none
  | ds =>
    if ds.all Char.isDigit then some ((digitsVal ds : Int)) else none

/-- Python `int(x)` on a decrypted JSON field (`none` when the field is
absent — a `KeyError` — or the text is not an integer literal). -/
def pyToInt (v : Option JVal) : Option Int :=
  match v with
  | some (JVal.int i) => some i
  | some (JVal.str s) => pyIntOfString s
  | none => none

/-- One network request issued by a script (method and path). -/
inductive RequestEv : Type
  | get (path : String)
  | post (path : String)
  deriving DecidableEq, Repr

/-- Why a run stopped (mirrors the scripts' early-return/exit sites). -/
inductive FailReason : Type
  | noFailure
  | connectivity
  | serverKeyMissing
  | clientKeyMissing
  | sameKeyFingerprint
  | message1Status
  | payloadMissing
  | unlockNoPass
  | decryptFailed
  | nonceMismatch
  | nonceServerMissing
  | message2Status
  | resultMissing
  | artifactCheck
  | keysLoadFailed
  | unlockFailed
  | fetchFailed
  deriving DecidableEq, Repr

/-- Observable result of one script run: outcome, objects sealed (arguments
of the seal operation, in order), network requests issued (in order), file
contents persisted, and the link token if one was obtained. -/
structure RunResult : Type where
  success : Bool
  reason : FailReason
  sealed : List JObj
  requests : List RequestEv
  written : List (List Nat)
  linkToken : Option JVal
  deriving DecidableEq, Repr

namespace FixedRmapClient

/-- `IDENTITY` constant of `fixed_rmap_client.py`. -/
def IDENTITY : String := "Group_04"

/-- Environment of one `fixed_rmap_client.main()` run: connectivity and key
loading outcomes, key fingerprints, the generated `secrets.randbits(64)`
value, and the server's behaviour (statuses, response bodies, and the
plaintext object the first response decrypts to). -/
structure Env : Type where
  connectivityOk : Bool := true
  serverKeyFound : Bool := true
  clientKeyOk : Bool := true
  serverFp : String := "AAAA"
  clientFp : String := "BBBB"
  nonceClient : Nat := 123456789
  keyProtected : Bool := true
  passphrase : Option String := some "pw"
  r1Status : Nat := 200
  r1Body : JObj := [("payload", JVal.str "b64")]
  payloadDecodeOk : Bool := true
  decryptOk : Bool := true
  obj1 : JObj := []
  r2Status : Nat := 200
  r2Body : JObj := [("result", JVal.str "abc123")]
  pdfStatus : Nat := 200
  pdfContentType : Option String := some "application/pdf"
  pdfBytes : List Nat := [37, 80, 68, 70]
  deriving Repr

/-- The first handshake message `{"identity": IDENTITY, "nonceClient": n}`. -/
def msg1Obj (env : Env) : JObj :=
  [("identity", JVal.str IDENTITY), ("nonceClient", JVal.int env.nonceClient)]

/-- Outcome of `decrypt_from_server(resp1["payload"], client_priv_key)` as
`main` observes it: base64/blob errors, the `SystemExit` when the key is
protected and no passphrase is configured, decryption errors, or the
decrypted object supplied by the environment. -/
def decryptOutcome (env : Env) : DecOutcome :=
  if env.payloadDecodeOk = false then DecOutcome.formatErr
  else if env.keyProtected && env.passphrase.isNone then DecOutcome.sysexit
  else if env.decryptOk then DecOutcome.ok env.obj1
  else DecOutcome.decErr

/-- `fixed_rmap_client.main()`: connectivity probe, key loading, the
same-fingerprint guard, then the two encrypted round trips and the PDF
download with its status/content-type check. -/
def main (env : Env) : RunResult :=
  let reqs0 := [RequestEv.get "/"]
  if env.connectivityOk = false then
    { success := false, reason := FailReason.connectivity, sealed := [],
      requests := reqs0, written := [], linkToken := none }
  else if env.serverKeyFound = false then
    { success := false, reason := FailReason.serverKeyMissing, sealed := [],
      requests := reqs0, written := [], linkToken := none }
  else if env.clientKeyOk = false then
    { success := false, reason := FailReason.clientKeyMissing, sealed := [],
      requests := reqs0, written := [], linkToken := none }
  else if env.serverFp = env.clientFp then
    { success := false, reason := FailReason.sameKeyFingerprint, sealed := [],
      requests := reqs0, written := [], linkToken := none }
  else
    let sealed1 := [msg1Obj env]
    let reqs1 := reqs0 ++ [RequestEv.post "/api/rmap-initiate"]
    if env.r1Status ≠ 200 then
      { success := false, reason := FailReason.message1Status, sealed := sealed1,
        requests := reqs1, written := [], linkToken := none }
    else if (lookupJ env.r1Body "payload").isNone then
      { success := false, reason := FailReason.payloadMissing, sealed := sealed1,
        requests := reqs1, written := [], linkToken := none }
    else
      match decryptOutcome env with
      | DecOutcome.sysexit =>
        { success := false, reason := FailReason.unlockNoPass, sealed := sealed1,
          requests := reqs1, written := [], linkToken := none }
      | DecOutcome.unlockErr =>
        { success := false, reason := FailReason.decryptFailed, sealed := sealed1,
          requests := reqs1, written := [], linkToken := none }
      | DecOutcome.formatErr =>
        { success := false, reason := FailReason.decryptFailed, sealed := sealed1,
          requests := reqs1, written := [], linkToken := none }
      | DecOutcome.decErr =>
        { success := false, reason := FailReason.decryptFailed, sealed := sealed1,
          requests := reqs1, written := [], linkToken := none }
      | DecOutcome.ok obj1 =>
        if pyEqInt (lookupJ obj1 "nonceClient") env.nonceClient = false then
          { success := false, reason := FailReason.nonceMismatch, sealed := sealed1,
            requests := reqs1, written := [], linkToken := none }
        else
          match lookupJ obj1 "nonceServer" with
          | none =>
            { success := false, reason := FailReason.nonceServerMissing,
              sealed := sealed1, requests := reqs1, written := [], linkToken := none }
          | some nonceServer =>
            let sealed2 := sealed1 ++ [[("nonceServer", nonceServer)]]
            let reqs2 := reqs1 ++ [RequestEv.post "/api/rmap-get-link"]
            if env.r2Status ≠ 200 then
              { success := false, reason := FailReason.message2Status,
                sealed := sealed2, requests := reqs2, written := [], linkToken := none }
            else
              match lookupJ env.r2Body "result" with
              | none =>
                { success := false, reason := FailReason.resultMissing,
                  sealed := sealed2, requests := reqs2, written := [], linkToken := none }
              | some tok =>
                let reqs3 := reqs2 ++ [RequestEv.get "/api/get-version"]
                if env.pdfStatus ≠ 200 ∨ env.pdfContentType ≠ some "application/pdf" then
                  { success := false, reason := FailReason.artifactCheck,
                    sealed := sealed2, requests := reqs3, written := [],
                    linkToken := some tok }
                else
                  { success := true, reason := FailReason.noFailure,
                    sealed := sealed2, requests := reqs3, written := [env.pdfBytes],
                    linkToken := some tok }

end FixedRmapClient

namespace RmapClientPdfGetting

/-- `IDENTITY` constant of `rmap_client_pdf_getting.py`. -/
def IDENTITY : String := "Group_04"

/-- Environment of one `rmap_client_pdf_getting.main()` run. The response
`Content-Type` of the final download is part of the environment although the
script never inspects it. -/
structure Env : Type where
  keysLoadOk : Bool := true
  keyProtected : Bool := true
  passphrase : Option String := some "pw"
  correctPass : String := "pw"
  nonceClient : Nat := 123456789
  r1Ok : Bool := true
  r1Body : JObj := [("payload", JVal.str "b64")]
  decryptOk : Bool := true
  obj1 : JObj := []
  r2Ok : Bool := true
  r2Body : JObj := [("result", JVal.str "abc123")]
  fetchOk : Bool := true
  fetchContentType : Option String := some "application/pdf"
  fetchBytes : List Nat := [37, 80, 68, 70]
  deriving Repr

/-- `PGPKey.unlock(passphrase)` succeeds: the key is protected and the
supplied passphrase is the right one (`unlock(None)` and a wrong passphrase
both raise). -/
def unlockOk (env : Env) : Bool :=
  env.keyProtected &&
    (match env.passphrase with
     | none => false
     | some p => p == env.correctPass)

/-- `rmap_client_pdf_getting.main()`: key loading, the up-front unlock test,
then the two encrypted round trips (nonces coerced with `int(...)`) and the
final download, which is persisted without any content-type check. -/
def main (env : Env) : RunResult :=
  if env.keysLoadOk = false then
    { success := false, reason := FailReason.keysLoadFailed, sealed := [],
      requests := [], written := [], linkToken := none }
  else if unlockOk env = false then
    { success := false, reason := FailReason.unlockFailed, sealed := [],
      requests := [], written := [], linkToken := none }
  else
    let msg1 : JObj :=
      [("identity", JVal.str IDENTITY), ("nonceClient", JVal.int env.nonceClient)]
    let sealed1 := [msg1]
    let reqs1 := [RequestEv.post "/api/rmap-initiate"]
    if env.r1Ok = false then
      { success := false, reason := FailReason.message1Status, sealed := sealed1,
        requests := reqs1, written := [], linkToken := none }
    else if (lookupJ env.r1Body "payload").isNone then
      { success := false, reason := FailReason.payloadMissing, sealed := sealed1,
        requests := reqs1, written := [], linkToken := none }
    else if env.decryptOk = false then
      { success := false, reason := FailReason.decryptFailed, sealed := sealed1,
        requests := reqs1, written := [], linkToken := none }
    else
      match pyToInt (lookupJ env.obj1 "nonceClient") with
      | none =>
        { success := false, reason := FailReason.decryptFailed, sealed := sealed1,
          requests := reqs1, written := [], linkToken := none }
      | some receivedNonce =>
        if receivedNonce ≠ (env.nonceClient : Int) then
          { success := false, reason := FailReason.nonceMismatch, sealed := sealed1,
            requests := reqs1, written := [], linkToken := none }
        else
          match pyToInt (lookupJ env.obj1 "nonceServer") with
          | none =>
            { success := false, reason := FailReason.nonceServerMissing,
              sealed := sealed1, requests := reqs1, written := [], linkToken := none }
          | some nonceServer =>
            let sealed2 := sealed1 ++ [[("nonceServer", JVal.int nonceServer)]]
            let reqs2 := reqs1 ++ [RequestEv.post "/api/rmap-get-link"]
            if env.r2Ok = false then
              { success := false, reason := FailReason.message2Status,
                sealed := sealed2, requests := reqs2, written := [], linkToken := none }
            else
              match lookupJ env.r2Body "result" with
              | none =>
                { success := false, reason := FailReason.resultMissing,
                  sealed := sealed2, requests := reqs2, written := [], linkToken := none }
              | some link =>
                let reqs3 := reqs2 ++ [RequestEv.get "/api/get-version"]
                if env.fetchOk = false then
                  { success := false, reason := FailReason.fetchFailed,
                    sealed := sealed2, requests := reqs3, written := [],
                    linkToken := some link }
                else
                  { success := true, reason := FailReason.noFailure,
                    sealed := sealed2, requests := reqs3, written := [env.fetchBytes],
                    linkToken := some link }

end RmapClientPdfGetting

namespace TestGroupRmap

/-- The nonce verification of `test_group_rmap.main` step 2:
`int(server_data["nonceClient"]) != nonce_client` raises, i.e. the check
passes exactly when the field coerces via `int(...)` to the session nonce. -/
def nonceCheckPasses (serverData : JObj) (nonceClient : Nat) : Bool :=
  match pyToInt (lookupJ serverData "nonceClient") with
  | some i => i == (nonceClient : Int)
  | none => false

end TestGroupRmap

/-- Witness fixture: a run of `fixed_rmap_client.main` whose decrypted first
response echoes a wrong `nonceClient`. -/
def envC1 : FixedRmapClient.Env :=
  { obj1 := [("nonceClient", JVal.int 42), ("nonceServer", JVal.int 987654321)] }

/-- Witness fixture: the happy-path run of the spec's example. -/
def envC5 : FixedRmapClient.Env :=
  { obj1 := [("nonceClient", JVal.int 123456789), ("nonceServer", JVal.int 987654321)] }

/-- Witness fixture: artifact fetch answers `200` with `text/html`. -/
def envC3 : FixedRmapClient.Env :=
  { obj1 := [("nonceClient", JVal.int 123456789), ("nonceServer", JVal.int 987654321)],
    pdfContentType := some "text/html" }

/-- Counterexample fixture: `rmap_client_pdf_getting` downloads with a
mismatched `Content-Type`. -/
def envC3pdf : RmapClientPdfGetting.Env :=
  { obj1 := [("nonceClient", JVal.int 123456789), ("nonceServer", JVal.int 987654321)],
    fetchContentType := some "text/html", fetchBytes := [60, 104, 116, 109, 108, 62] }

/-- Counterexample fixture: `fixed_rmap_client` with a protected key and no
passphrase; the server behaves correctly. -/
def envC7 : FixedRmapClient.Env :=
  { keyProtected := true, passphrase := none,
    obj1 := [("nonceClient", JVal.int 123456789), ("nonceServer", JVal.int 987654321)] }

/-- Witness fixture: `rmap_client_pdf_getting` with no passphrase. -/
def envC7pdf : RmapClientPdfGetting.Env := { passphrase := none }

/-- Counterexample fixture: the first response echoes the correct nonce as a
decimal string; `fixed_rmap_client` compares without coercion. -/
def envC6 : FixedRmapClient.Env :=
  { nonceClient := 123456789,
    obj1 := [("nonceClient", JVal.str "123456789"), ("nonceServer", JVal.int 987654321)] }

/-- Witness fixture: `rmap_client_pdf_getting` receives both nonces as
decimal strings. -/
def envC6pdf : RmapClientPdfGetting.Env :=
  { nonceClient := 123456789,
    obj1 := [("nonceClient", JVal.str "123456789"), ("nonceServer", JVal.str "987654321")] }

/-- Witness fixture: server and client key files with one fingerprint. -/
def envC10 : FixedRmapClient.Env := { serverFp := "SAMEFP", clientFp := "SAMEFP" }

/-- Witness fixture for the round trip: the identity armoring (the PGP
encrypt/decrypt pair is abstract; any inverse pair will do). -/
def wPgpEnc : String → String := fun s => s

/-- Witness fixture: the matching decryption (ASCII decode of the blob). -/
def wPgpDec : List Nat → Option String := fun bs => some (decodeAscii bs)

/-- Witness fixture: blob parsing always succeeds. -/
def wFromBlobOk : List Nat → Bool := fun _ => true

/-- Witness fixture: an unprotected client key. -/
def wKey : KeyState := { isProt := false, locked := true }

/-- Witness fixture: a first handshake message (keys deliberately given in
non-sorted order). -/
def wMsg : JObj := [("nonceClient", JVal.int 7), ("identity", JVal.str "Group_04")]

/-- Witness fixture for canonical determinism: the same mapping with the
opposite insertion order. -/
def wMsgSwapped : JObj := [("identity", JVal.str "Group_04"), ("nonceClient", JVal.int 7)]

/-- Witness fixture for the round trip: a one-entry mapping. -/
def wMsg1 : JObj := [("identity", JVal.str "Group_04")]

lemma pyEqInt_false_of_ne {v : JVal} {n : Nat} (h : v ≠ JVal.int n) :
    pyEqInt (some v) n = false := by
  cases v with
  | str s => rfl
  | int i =>
    simp only [pyEqInt, beq_eq_false_iff_ne, ne_eq]
    intro h'
    exact h (by rw [h'])

/-- C9: the four scripts' seal operations implement one function: for every
(abstracted) PGP encrypt-and-armor primitive and every mapping, the
canonical plaintext and the encrypt–armor–base64 pipeline coincide across
`encrypt_to_server` (both scripts), `encrypt_for_server` and
`encrypt_to_target`. -/
theorem rmap_c9_seal_equivalence (pgpEncryptArmor : String → String) (obj : JObj) :
    FixedRmapClient.encrypt_to_server pgpEncryptArmor obj =
      RmapClientTest.encrypt_to_server pgpEncryptArmor obj ∧
    FixedRmapClient.encrypt_to_server pgpEncryptArmor obj =
      RmapClientPdfGetting.encrypt_for_server pgpEncryptArmor obj ∧
    FixedRmapClient.encrypt_to_server pgpEncryptArmor obj =
      TestGroupRmap.encrypt_to_target pgpEncryptArmor obj :=
  ⟨rfl, rfl, rfl⟩

/-- C10: whenever the loaded server public key and the loaded client private
key share a fingerprint, `fixed_rmap_client.main` returns `False` before the
handshake: nothing is sealed and no handshake message is posted (only the
connectivity probe was issued). -/
theorem rmap_c10_same_fingerprint_aborts (env : FixedRmapClient.Env)
    (h : env.serverFp = env.clientFp) :
    (FixedRmapClient.main env).success = false ∧
    (FixedRmapClient.main env).sealed = [] ∧
    (FixedRmapClient.main env).requests = [RequestEv.get "/"] := by
  unfold FixedRmapClient.main
  simp only [h, eq_self_iff_true, if_true]
  repeat' split
  all_goals exact ⟨rfl, rfl, rfl⟩

theorem rmap_c10_witness :
    (FixedRmapClient.main envC10).success = false ∧
    (FixedRmapClient.main envC10).sealed = [] ∧
    (FixedRmapClient.main envC10).requests = [RequestEv.get "/"] :=
  rmap_c10_same_fingerprint_aborts envC10 rfl

/-- C8: both decrypt operations unlock a protected key only inside the
single call and relock it on every exit path — error or success, the key
handle is locked again after the call whenever it was locked before. -/
theorem rmap_c8_relock_on_exit (fromBlobOk : List Nat → Bool)
    (pgpDecryptArmor : List Nat → Option String) (key : KeyState)
    (passphrase : Option String) (passOk : Bool) (payload : String)
    (h : key.locked = true) :
    (FixedRmapClient.decrypt_from_server fromBlobOk pgpDecryptArmor key
        passphrase passOk payload).2.locked = true ∧
    (RmapClientPdfGetting.decrypt_for_client fromBlobOk pgpDecryptArmor key
        passOk payload).2.locked = true := by
  constructor
  · unfold FixedRmapClient.decrypt_from_server
    repeat' split
    all_goals first | exact h | rfl
  · unfold RmapClientPdfGetting.decrypt_for_client
    repeat' split
    all_goals first | exact h | rfl

theorem rmap_c8_witness :
    (FixedRmapClient.decrypt_from_server wFromBlobOk wPgpDec
        { isProt := true, locked := true } (some "pw") true "").2.locked = true ∧
    (RmapClientPdfGetting.decrypt_for_client wFromBlobOk wPgpDec
        { isProt := true, locked := true } true "").2.locked = true :=
  rmap_c8_relock_on_exit wFromBlobOk wPgpDec
    { isProt := true, locked := true } (some "pw") true "" rfl

/-- C1: if the decrypted first response carries a `nonceClient` different
from the generated one, the session fails (`nonceMismatch`), only the first
message was ever sealed, and no POST to `/api/rmap-get-link` is issued. -/
theorem rmap_c1_nonce_mismatch_aborts (env : FixedRmapClient.Env) (v : JVal)
    (hc : env.connectivityOk = true) (hsk : env.serverKeyFound = true)
    (hck : env.clientKeyOk = true) (hfp : env.serverFp ≠ env.clientFp)
    (h1 : env.r1Status = 200) (hp : (lookupJ env.r1Body "payload").isNone = false)
    (hdec : FixedRmapClient.decryptOutcome env = DecOutcome.ok env.obj1)
    (hv : lookupJ env.obj1 "nonceClient" = some v)
    (hne : v ≠ JVal.int env.nonceClient) :
    (FixedRmapClient.main env).success = false ∧
    (FixedRmapClient.main env).reason = FailReason.nonceMismatch ∧
    (FixedRmapClient.main env).sealed = [FixedRmapClient.msg1Obj env] ∧
    RequestEv.post "/api/rmap-get-link" ∉ (FixedRmapClient.main env).requests := by
  have hmm : pyEqInt (lookupJ env.obj1 "nonceClient") env.nonceClient = false := by
    rw [hv]
    exact pyEqInt_false_of_ne hne
  unfold FixedRmapClient.main
  rw [hc, hsk, hck, h1, hp, hdec]
  simp only [Bool.false_eq_true, if_false, ne_eq, not_true_eq_false,
    if_neg (hfp ·)]
  rw [hmm]
  simp

theorem rmap_c1_witness :
    (FixedRmapClient.main envC1).success = false ∧
    (FixedRmapClient.main envC1).reason = FailReason.nonceMismatch ∧
    (FixedRmapClient.main envC1).sealed = [FixedRmapClient.msg1Obj envC1] ∧
    RequestEv.post "/api/rmap-get-link" ∉ (FixedRmapClient.main envC1).requests :=
  rmap_c1_nonce_mismatch_aborts envC1 (JVal.int 42) rfl rfl rfl
    (by decide) rfl (by decide) (by decide) (by decide) (by decide)

/-- C5: on the happy path (correct echoed nonce, a `nonceServer` present,
and a second response with a `result` field) the client seals exactly
`{"nonceServer": v}` as its second envelope and finishes the handshake with
the `result` value as the link token. -/
theorem rmap_c5_happy_path (env : FixedRmapClient.Env) (v tok : JVal)
    (hc : env.connectivityOk = true) (hsk : env.serverKeyFound = true)
    (hck : env.clientKeyOk = true) (hfp : env.serverFp ≠ env.clientFp)
    (h1 : env.r1Status = 200) (hp : (lookupJ env.r1Body "payload").isNone = false)
    (hdec : FixedRmapClient.decryptOutcome env = DecOutcome.ok env.obj1)
    (hmatch : lookupJ env.obj1 "nonceClient" = some (JVal.int env.nonceClient))
    (hns : lookupJ env.obj1 "nonceServer" = some v)
    (h2 : env.r2Status = 200)
    (hres : lookupJ env.r2Body "result" = some tok) :
    (FixedRmapClient.main env).sealed =
      [FixedRmapClient.msg1Obj env, [("nonceServer", v)]] ∧
    (FixedRmapClient.main env).linkToken = some tok := by
  have hmm : pyEqInt (lookupJ env.obj1 "nonceClient") env.nonceClient = true := by
    rw [hmatch]
    simp [pyEqInt]
  unfold FixedRmapClient.main
  rw [hc, hsk, hck, h1, hp, hdec]
  simp only [Bool.false_eq_true, if_false, ne_eq, not_true_eq_false,
    if_neg (hfp ·)]
  rw [hmm]
  simp only [hns, h2, hres]
  norm_num
  split
  · exact ⟨rfl, rfl⟩
  · exact ⟨rfl, rfl⟩

theorem rmap_c5_witness :
    (FixedRmapClient.main envC5).sealed =
      [FixedRmapClient.msg1Obj envC5, [("nonceServer", JVal.int 987654321)]] ∧
    (FixedRmapClient.main envC5).linkToken = some (JVal.str "abc123") :=
  rmap_c5_happy_path envC5 (JVal.int 987654321) (JVal.str "abc123") rfl rfl rfl
    (by decide) rfl (by decide) (by decide) (by decide) (by decide) rfl (by decide)

/-- C3 (amended): in `fixed_rmap_client`, if the artifact response's status
is not 200 or its `Content-Type` differs from `application/pdf`, the run
fails and nothing is written to storage. -/
theorem rmap_c3_amended (env : FixedRmapClient.Env)
    (h : env.pdfStatus ≠ 200 ∨ env.pdfContentType ≠ some "application/pdf") :
    (FixedRmapClient.main env).success = false ∧
    (FixedRmapClient.main env).written = [] := by
  unfold FixedRmapClient.main
  repeat' split
  all_goals exact ⟨rfl, rfl⟩

theorem rmap_c3_witness :
    (FixedRmapClient.main envC3).success = false ∧
    (FixedRmapClient.main envC3).written = [] :=
  rmap_c3_amended envC3 (Or.inr (by decide))

/-- C3 (counterexample): `rmap_client_pdf_getting` never checks the
download's `Content-Type` — with status 200 and `text/html` it still
persists the body, contradicting "zero bytes written on any mismatch". -/
theorem rmap_c3_counterexample :
    envC3pdf.fetchContentType = some "text/html" ∧
    (RmapClientPdfGetting.main envC3pdf).success = true ∧
    (RmapClientPdfGetting.main envC3pdf).written = [[60, 104, 116, 109, 108, 62]] := by
  decide

/-- C7 (counterexample): in `fixed_rmap_client` a protected key with no
passphrase only fails inside `decrypt_from_server`, after the connectivity
probe and the first handshake POST have already been issued. -/
theorem rmap_c7_counterexample :
    envC7.keyProtected = true ∧ envC7.passphrase = none ∧
    (FixedRmapClient.main envC7).reason = FailReason.unlockNoPass ∧
    (FixedRmapClient.main envC7).requests =
      [RequestEv.get "/", RequestEv.post "/api/rmap-initiate"] := by
  decide

/-- C7 (amended): in `rmap_client_pdf_getting` the up-front unlock test makes
a missing passphrase fail before any network request is issued. -/
theorem rmap_c7_amended (env : RmapClientPdfGetting.Env)
    (h : env.passphrase = none) :
    (RmapClientPdfGetting.main env).requests = [] ∧
    (RmapClientPdfGetting.main env).success = false := by
  have hu : RmapClientPdfGetting.unlockOk env = false := by
    unfold RmapClientPdfGetting.unlockOk
    rw [h]
    simp
  unfold RmapClientPdfGetting.main
  rw [hu]
  split
  all_goals exact ⟨rfl, rfl⟩

theorem rmap_c7_witness :
    (RmapClientPdfGetting.main envC7pdf).requests = [] ∧
    (RmapClientPdfGetting.main envC7pdf).success = false :=
  rmap_c7_amended envC7pdf rfl

/-- C6 (counterexample): a correctly-echoed `nonceClient` delivered as a
decimal string is treated as a mismatch by `fixed_rmap_client` — the
comparison `obj1.get("nonceClient") != nonce_client` performs no coercion. -/
theorem rmap_c6_counterexample :
    lookupJ envC6.obj1 "nonceClient" = some (JVal.str "123456789") ∧
    envC6.nonceClient = 123456789 ∧
    (FixedRmapClient.main envC6).reason = FailReason.nonceMismatch ∧
    (FixedRmapClient.main envC6).success = false := by
  decide

/-- C6 (amended): `rmap_client_pdf_getting` (and `test_group_rmap`, whose
step-2 check is `nonceCheckPasses`) coerce nonce fields with `int(...)`:
a correctly-echoed `nonceClient` delivered as a decimal string is accepted,
the session proceeds to the second POST, and the sealed second message
carries the coerced integer `nonceServer`. -/
theorem rmap_c6_amended (env : RmapClientPdfGetting.Env) (s : String) (iS : Int)
    (hl : env.keysLoadOk = true) (hu : RmapClientPdfGetting.unlockOk env = true)
    (h1 : env.r1Ok = true) (hp : (lookupJ env.r1Body "payload").isNone = false)
    (hd : env.decryptOk = true)
    (hnc : lookupJ env.obj1 "nonceClient" = some (JVal.str s))
    (hs : pyIntOfString s = some ((env.nonceClient : Int)))
    (hns : pyToInt (lookupJ env.obj1 "nonceServer") = some iS) :
    (RmapClientPdfGetting.main env).reason ≠ FailReason.nonceMismatch ∧
    RequestEv.post "/api/rmap-get-link" ∈ (RmapClientPdfGetting.main env).requests ∧
    (RmapClientPdfGetting.main env).sealed =
      [[("identity", JVal.str "Group_04"),
        ("nonceClient", JVal.int env.nonceClient)],
       [("nonceServer", JVal.int iS)]] ∧
    TestGroupRmap.nonceCheckPasses env.obj1 env.nonceClient = true := by
  have hnc' : pyToInt (lookupJ env.obj1 "nonceClient") =
      some ((env.nonceClient : Int)) := by
    rw [hnc]
    simpa [pyToInt] using hs
  have hcheck : TestGroupRmap.nonceCheckPasses env.obj1 env.nonceClient = true := by
    unfold TestGroupRmap.nonceCheckPasses
    rw [hnc']
    simp
  unfold RmapClientPdfGetting.main
  rw [hl, hu, h1, hp, hd]
  simp only [Bool.true_eq_false, if_false, Option.isNone_none, hnc', hns]
  norm_num [RmapClientPdfGetting.IDENTITY]
  split
  · exact ⟨by simp, by simp, rfl, hcheck⟩
  · split
    · exact ⟨by simp, by simp, rfl, hcheck⟩
    · split
      · exact ⟨by simp, by simp, rfl, hcheck⟩
      · exact ⟨by simp, by simp, rfl, hcheck⟩

theorem rmap_c6_witness :
    (RmapClientPdfGetting.main envC6pdf).reason ≠ FailReason.nonceMismatch ∧
    RequestEv.post "/api/rmap-get-link" ∈ (RmapClientPdfGetting.main envC6pdf).requests ∧
    (RmapClientPdfGetting.main envC6pdf).sealed =
      [[("identity", JVal.str "Group_04"), ("nonceClient", JVal.int 123456789)],
       [("nonceServer", JVal.int 987654321)]] ∧
    TestGroupRmap.nonceCheckPasses envC6pdf.obj1 envC6pdf.nonceClient = true :=
  rmap_c6_amended envC6pdf "123456789" 987654321 rfl (by decide) rfl (by decide)
    rfl (by decide) (by decide) (by decide)

lemma decChar_encChar {n : Nat} (h : n < 64) : decChar (encChar n) = some n := by
  have H : ∀ m, m < 64 → decChar (encChar m) = some m := by decide
  exact H n h

lemma encChar_ne_pad {n : Nat} (h : n < 64) : encChar n ≠ '=' := by
  have H : ∀ m, m < 64 → encChar m ≠ '=' := by decide
  exact H n h

lemma b64_roundtrip (l : List Nat) :
    (∀ x ∈ l, x < 256) → b64decode (b64encode l) = some l := by
  induction l using b64encode.induct with
  | case1 =>
    intro _
    rfl
  | case2 a =>
    intro h
    have ha : a < 256 := h a (by simp)
    have h0 : a / 4 < 64 := by omega
    have h1 : a % 4 * 16 < 64 := by omega
    simp [b64encode, b64decode, decChar_encChar h0, decChar_encChar h1]
    omega
  | case3 a b =>
    intro h
    have ha : a < 256 := h a (by simp)
    have hb : b < 256 := h b (by simp)
    have h0 : a / 4 < 64 := by omega
    have h1 : a % 4 * 16 + b / 16 < 64 := by omega
    have h2 : b % 16 * 4 < 64 := by omega
    simp [b64encode, b64decode, decChar_encChar h0, decChar_encChar h1,
      decChar_encChar h2, encChar_ne_pad h2]
    omega
  | case4 a b c rest ih =>
    intro h
    have ha : a < 256 := h a (by simp)
    have hb : b < 256 := h b (by simp)
    have hc : c < 256 := h c (by simp)
    have h0 : a / 4 < 64 := by omega
    have h1 : a % 4 * 16 + b / 16 < 64 := by omega
    have h2 : b % 16 * 4 + c / 64 < 64 := by omega
    have h3 : c % 64 < 64 := by omega
    have hrest := ih (fun x hx => h x (by simp [hx]))
    simp [b64encode, b64decode, decChar_encChar h0, decChar_encChar h1,
      decChar_encChar h2, decChar_encChar h3, encChar_ne_pad h2,
      encChar_ne_pad h3, hrest]
    omega

lemma wfChar_ne_quote {c : Char} (h : wfChar c = true) : c ≠ '"' := by
  simp only [wfChar, Bool.and_eq_true, Bool.not_eq_true', decide_eq_true_eq,
    decide_eq_false_iff_not] at h
  exact h.1.2

lemma wfString_forall {s : String} (h : wfString s = true) :
    ∀ c ∈ s.data, c ≠ '"' := by
  intro c hc
  exact wfChar_ne_quote (List.all_eq_true.mp h c hc)

lemma scanStr_append {cs rest : List Char} (h : ∀ c ∈ cs, c ≠ '"') :
    scanStr (cs ++ '"' :: rest) = some (cs, rest) := by
  induction cs with
  | nil => simp [scanStr]
  | cons c cs ih =>
    have hc : c ≠ '"' := h c (by simp)
    simp [scanStr, hc, ih (fun x hx => h x (by simp [hx]))]

lemma parseStringLit_append {k : String} {rest : List Char}
    (h : wfString k = true) :
    parseStringLit (renderStr k ++ rest) = some (k, rest) := by
  have h2 : renderStr k ++ rest = '"' :: (k.data ++ '"' :: rest) := by
    simp [renderStr]
  rw [h2]
  simp [parseStringLit, scanStr_append (wfString_forall h)]

lemma natRevDigits_eq_digits :
    ∀ fuel n, n ≤ fuel → natRevDigits fuel n = Nat.digits 10 n := by
  intro fuel
  induction fuel with
  | zero =>
    intro n hn
    have : n = 0 := by omega
    subst this
    simp [natRevDigits]
  | succ f ih =>
    intro n hn
    by_cases h0 : n = 0
    · subst h0
      simp [natRevDigits]
    · have hlt : n / 10 < n := Nat.div_lt_self (Nat.pos_of_ne_zero h0) (by norm_num)
      rw [Nat.digits_def' (show (1:Nat) < 10 by norm_num) (Nat.pos_of_ne_zero h0)]
      simp only [natRevDigits, h0, if_false]
      rw [ih (n / 10) (by omega)]

lemma digitChar_isDigit {d : Nat} (h : d < 10) : (digitChar d).isDigit = true := by
  have H : ∀ m, m < 10 → (digitChar m).isDigit = true := by decide
  exact H d h

lemma digitChar_toNat {d : Nat} (h : d < 10) : (digitChar d).toNat = 48 + d := by
  have H : ∀ m, m < 10 → (digitChar m).toNat = 48 + m := by decide
  exact H d h

lemma isDigit_ne_quote {c : Char} (h : c.isDigit = true) : c ≠ '"' := by
  intro he
  rw [he] at h
  exact absurd h (by decide)

lemma isDigit_ne_minus {c : Char} (h : c.isDigit = true) : c ≠ '-' := by
  intro he
  rw [he] at h
  exact absurd h (by decide)

lemma natRepr_digits {n : Nat} : ∀ c ∈ natRepr n, c.isDigit = true := by
  intro c hc
  unfold natRepr at hc
  by_cases h0 : n = 0
  · simp [h0] at hc
    subst hc
    decide
  · rw [if_neg h0, natRevDigits_eq_digits n n le_rfl] at hc
    obtain ⟨d, hd, rfl⟩ := List.mem_map.mp hc
    exact digitChar_isDigit
      (Nat.digits_lt_base (by norm_num) (List.mem_reverse.mp hd))

lemma natRepr_ne_nil {n : Nat} : natRepr n ≠ [] := by
  unfold natRepr
  by_cases h0 : n = 0
  · simp [h0]
  · rw [if_neg h0, natRevDigits_eq_digits n n le_rfl]
    simp [Nat.digits_ne_nil_iff_ne_zero.mpr h0]

lemma foldl_digitChar (l : List Nat) (hl : ∀ d ∈ l, d < 10) :
    ∀ a : Nat, List.foldl (fun acc c => acc * 10 + (c.toNat - 48)) a
      (l.map digitChar) = List.foldl (fun acc d => acc * 10 + d) a l := by
  induction l with
  | nil => intro a; rfl
  | cons d l ih =>
    intro a
    have hd : d < 10 := hl d (by simp)
    simp only [List.map_cons, List.foldl_cons, digitChar_toNat hd]
    rw [ih (fun x hx => hl x (by simp [hx]))]
    congr 1
    omega

lemma foldr_ofDigits (l : List Nat) :
    List.foldr (fun d acc => acc * 10 + d) 0 l = Nat.ofDigits 10 l := by
  induction l with
  | nil => rfl
  | cons d l ih =>
    simp only [List.foldr_cons, ih, Nat.ofDigits_cons]
    ring

lemma digitsVal_natRepr (n : Nat) : digitsVal (natRepr n) = n := by
  unfold natRepr digitsVal
  by_cases h0 : n = 0
  · simp [h0]
  · rw [if_neg h0, natRevDigits_eq_digits n n le_rfl]
    rw [foldl_digitChar _ (fun d hd =>
      Nat.digits_lt_base (by norm_num) (List.mem_reverse.mp hd))]
    rw [List.foldl_reverse]
    have : (fun (a : Nat) (d : Nat) => a * 10 + d) = fun a d => a * 10 + d := rfl
    rw [show (List.foldr (fun (x : Nat) (y : Nat) => y * 10 + x) 0
        (Nat.digits 10 n)) = Nat.ofDigits 10 (Nat.digits 10 n) from
      foldr_ofDigits _]
    exact Nat.ofDigits_digits 10 n

lemma scanDigits_append {ds rest : List Char}
    (hd : ∀ c ∈ ds, c.isDigit = true)
    (hr : ∀ c, rest.head? = some c → c.isDigit = false) :
    scanDigits (ds ++ rest) = (ds, rest) := by
  induction ds with
  | nil =>
    cases rest with
    | nil => rfl
    | cons c r =>
      have : c.isDigit = false := hr c rfl
      simp [scanDigits, this]
  | cons c ds ih =>
    have hc : c.isDigit = true := hd c (by simp)
    simp [scanDigits, hc, ih (fun x hx => hd x (by simp [hx]))]

lemma parseVal_str {s : String} {rest : List Char} (h : wfString s = true) :
    parseVal (renderStr s ++ rest) = some (JVal.str s, rest) := by
  have h2 : renderStr s ++ rest = '"' :: (s.data ++ '"' :: rest) := by
    simp [renderStr]
  rw [h2]
  simp [parseVal, scanStr_append (wfString_forall h)]

lemma parseVal_int {i : Int} {rest : List Char}
    (hr : ∀ c, rest.head? = some c → c.isDigit = false) :
    parseVal (intRepr i ++ rest) = some (JVal.int i, rest) := by
  by_cases hneg : i < 0
  · have h2 : intRepr i ++ rest = '-' :: (natRepr i.natAbs ++ rest) := by
      simp [intRepr, hneg]
    rw [h2]
    have hscan := @scanDigits_append (natRepr i.natAbs) rest
      (fun c hc => natRepr_digits c hc) hr
    have hne : (natRepr i.natAbs).isEmpty = false := by
      cases hnr : natRepr i.natAbs with
      | nil => exact absurd hnr natRepr_ne_nil
      | cons c cs => rfl
    have hd2 : ((digitsVal (natRepr i.natAbs) : Int)) = -i := by
      rw [digitsVal_natRepr]
      exact Int.ofNat_natAbs_of_nonpos (le_of_lt hneg)
    simp [parseVal, hscan, hne, hd2]
  · have habs : intRepr i = natRepr i.natAbs := by simp [intRepr, hneg]
    obtain ⟨c, cs, hcons⟩ : ∃ c cs, natRepr i.natAbs = c :: cs := by
      cases hnr : natRepr i.natAbs with
      | nil => exact absurd hnr natRepr_ne_nil
      | cons c cs => exact ⟨c, cs, rfl⟩
    have hcd : c.isDigit = true := natRepr_digits c (by rw [hcons]; simp)
    have hscan : scanDigits (natRepr i.natAbs ++ rest) = (natRepr i.natAbs, rest) :=
      scanDigits_append (fun x hx => natRepr_digits x hx) hr
    rw [habs]
    rw [hcons] at hscan ⊢
    simp only [List.cons_append] at hscan ⊢
    have hd2 : ((digitsVal (c :: cs) : Int)) = i := by
      rw [← hcons, digitsVal_natRepr]
      exact Int.natAbs_of_nonneg (by omega)
    simp [parseVal, isDigit_ne_quote hcd, isDigit_ne_minus hcd, hcd, hscan, hd2]

lemma parseVal_render {v : JVal} {rest : List Char} (hv : wfVal v = true)
    (hr : ∀ c, rest.head? = some c → c.isDigit = false) :
    parseVal (renderVal v ++ rest) = some (v, rest) := by
  cases v with
  | str s => exact parseVal_str hv
  | int i => exact parseVal_int hr

lemma renderMembers_length_ge :
    ∀ ms : List (String × JVal), ms.length ≤ (renderMembers ms).length := by
  intro ms
  induction ms with
  | nil => simp [renderMembers]
  | cons kv tl ih =>
    obtain ⟨k, v⟩ := kv
    cases tl with
    | nil => simp [renderMembers, renderStr]
    | cons kv2 tl2 =>
      simp only [renderMembers, renderStr, List.length_append, List.length_cons,
        List.cons_append] at ih ⊢
      omega

lemma parseMembers_render :
    ∀ (ms : List (String × JVal)) (fuel : Nat) (rest : List Char),
      ms ≠ [] → wfObj ms = true → ms.length ≤ fuel →
      parseMembers fuel (renderMembers ms ++ '}' :: rest) = some (ms, rest) := by
  intro ms
  induction ms with
  | nil => intro _ _ hne _ _; exact absurd rfl hne
  | cons kv tl ih =>
    obtain ⟨k, v⟩ := kv
    intro fuel rest _ hwf hlen
    obtain ⟨f, rfl⟩ : ∃ f, fuel = f + 1 := by
      cases fuel with
      | zero => simp at hlen
      | succ f => exact ⟨f, rfl⟩
    have hkv := List.all_eq_true.mp hwf (k, v) (by simp)
    rw [Bool.and_eq_true] at hkv
    have hk : wfString k = true := hkv.1
    have hv : wfVal v = true := hkv.2
    cases tl with
    | nil =>
      have h2 : renderMembers [(k, v)] ++ '}' :: rest =
          renderStr k ++ ':' :: (renderVal v ++ '}' :: rest) := by
        simp [renderMembers]
      rw [h2]
      have hval := @parseVal_render v ('}' :: rest) hv
        (fun c hc => by simp at hc; rw [← hc]; decide)
      simp [parseMembers, parseStringLit_append hk, hval]
    | cons kv2 tl2 =>
      have h2 : renderMembers ((k, v) :: kv2 :: tl2) ++ '}' :: rest =
          renderStr k ++ ':' ::
            (renderVal v ++ ',' :: (renderMembers (kv2 :: tl2) ++ '}' :: rest)) := by
      
        simp [renderMembers]
      rw [h2]
      have hval := @parseVal_render v
        (',' :: (renderMembers (kv2 :: tl2) ++ '}' :: rest)) hv
        (fun c hc => by simp at hc; rw [← hc]; decide)
      have hwf' : wfObj (kv2 :: tl2) = true := by
        rw [wfObj, List.all_eq_true]
        intro p hp
        exact List.all_eq_true.mp hwf p (by simp [hp])
      have hrec := ih f rest (by simp) hwf' (by simp at hlen ⊢; omega)
      simp [parseMembers, parseStringLit_append hk, hval, hrec]

lemma parseObj_render {ms : JObj} {rest : List Char} (hwf : wfObj ms = true) :
    parseObj (render ms ++ rest) = some (ms, rest) := by
  cases ms with
  | nil => simp [render, renderMembers, parseObj]
  | cons kv tl =>
    obtain ⟨k, v⟩ := kv
    have h2 : render ((k, v) :: tl) ++ rest =
        '{' :: (renderMembers ((k, v) :: tl) ++ '}' :: rest) := by
      simp [render]
    rw [h2]
    obtain ⟨t, ht⟩ : ∃ t, renderMembers ((k, v) :: tl) = '"' :: t := by
      cases tl with
      | nil => exact ⟨_, rfl⟩
      | cons kv2 tl2 => exact ⟨_, rfl⟩
    have hlen : ((k, v) :: tl).length ≤
        (renderMembers ((k, v) :: tl) ++ '}' :: rest).length := by
      have hge := renderMembers_length_ge ((k, v) :: tl)
      simp only [List.length_append, List.length_cons] at hge ⊢
      omega
    have hmem := parseMembers_render ((k, v) :: tl)
      ((renderMembers ((k, v) :: tl) ++ '}' :: rest).length) rest
      (by simp) hwf hlen
    rw [ht] at hmem ⊢
    simp only [List.cons_append] at hmem ⊢
    simp [parseObj]
    simpa using hmem

lemma wfObj_sortKeys {m : JObj} (h : wfObj m = true) :
    wfObj (sortKeys m) = true := by
  rw [wfObj, List.all_eq_true]
  intro p hp
  exact List.all_eq_true.mp h p
    ((List.perm_insertionSort _ m).subset hp)

lemma loads_dumps {m : JObj} (h : wfObj m = true) :
    loads (dumps m) = some (sortKeys m) := by
  have hrender : parseObj (render (sortKeys m) ++ []) = some (sortKeys m, []) :=
    parseObj_render (wfObj_sortKeys h)
  rw [List.append_nil] at hrender
  simp [loads, dumps, hrender]

lemma lookupJ_perm {l1 l2 : JObj} (hp : l1.Perm l2) :
    (l1.map Prod.fst).Nodup → ∀ k, lookupJ l1 k = lookupJ l2 k := by
  induction hp with
  | nil => intro _ _; rfl
  | cons a hp ih =>
    intro hn k
    obtain ⟨a1, a2⟩ := a
    simp only [List.map_cons, List.nodup_cons] at hn
    simp only [lookupJ]
    split
    · rfl
    · exact ih hn.2 k
  | swap x y t =>
    intro hn k
    obtain ⟨x1, x2⟩ := x
    obtain ⟨y1, y2⟩ := y
    simp only [List.map_cons, List.nodup_cons, List.mem_cons] at hn
    have hxy : y1 ≠ x1 := fun h => hn.1 (Or.inl h)
    by_cases hy : y1 = k <;> by_cases hx : x1 = k <;>
      simp only [lookupJ, hy, hx, if_pos, if_neg, if_true, if_false]
    · exact absurd (hy.trans hx.symm) hxy
  | trans hp1 hp2 ih1 ih2 =>
    intro hn k
    have hn2 := ((hp1.map Prod.fst).nodup_iff).mp hn
    exact (ih1 hn k).trans (ih2 hn2 k)

lemma sortKeys_sorted_lt {l : JObj} (hn : (l.map Prod.fst).Nodup) :
    List.Sorted (fun p q : String × JVal => p.1 < q.1) (sortKeys l) := by
  haveI ht : IsTotal (String × JVal) (fun p q => p.1 ≤ q.1) :=
    ⟨fun a b => le_total a.1 b.1⟩
  haveI htr : IsTrans (String × JVal) (fun p q => p.1 ≤ q.1) :=
    ⟨fun a b c h h' => le_trans h h'⟩
  have hs : List.Sorted (fun p q : String × JVal => p.1 ≤ q.1) (sortKeys l) :=
    List.sorted_insertionSort _ l
  have hn' : ((sortKeys l).map Prod.fst).Nodup :=
    (((List.perm_insertionSort
      (fun p q : String × JVal => p.1 ≤ q.1) l).map Prod.fst).nodup_iff).mpr hn
  have hpw : List.Pairwise (fun p q : String × JVal => p.1 ≠ q.1) (sortKeys l) :=
    List.pairwise_map.mp hn'
  exact (List.Pairwise.and hs hpw).imp (fun h => lt_of_le_of_ne h.1 h.2)

lemma sortKeys_eq_of_perm {l1 l2 : JObj} (hp : l1.Perm l2)
    (hnd : (l1.map Prod.fst).Nodup) : sortKeys l1 = sortKeys l2 := by
  haveI : IsAntisymm (String × JVal) (fun p q => p.1 < q.1) :=
    ⟨fun a b h1 h2 => absurd (lt_trans h1 h2) (lt_irrefl _)⟩
  have hperm : (sortKeys l1).Perm (sortKeys l2) :=
    (List.perm_insertionSort _ l1).trans
      (hp.trans (List.perm_insertionSort _ l2).symm)
  have hnd2 : (l2.map Prod.fst).Nodup := ((hp.map Prod.fst).nodup_iff).mp hnd
  exact List.eq_of_perm_of_sorted hperm (sortKeys_sorted_lt hnd)
    (sortKeys_sorted_lt hnd2)

/-- C4: the canonical serialization step of seal is insertion-order
independent — two logically equal mappings (same pairs, any order, no
duplicate keys) produce byte-identical canonical plaintext. -/
theorem rmap_c4_canonical_determinism (l1 l2 : JObj) (hp : l1.Perm l2)
    (hnd : (l1.map Prod.fst).Nodup) : dumps l1 = dumps l2 := by
  unfold dumps
  rw [sortKeys_eq_of_perm hp hnd]

theorem rmap_c4_witness : dumps wMsg = dumps wMsgSwapped :=
  rmap_c4_canonical_determinism wMsg wMsgSwapped
    (List.Perm.swap _ _ _) (by decide)

/-- C2: opening a sealed envelope returns the original mapping — for any
mapping (dict: no duplicate keys, strings the canonical serializer emits
verbatim), any inverse PGP encrypt/decrypt pair over ASCII armor, and a key
usable for decryption, `decrypt_from_server ∘ encrypt_to_server` yields the
key-sorted mapping, which is equal to the input as a Python dict. -/
theorem rmap_c2_seal_open_roundtrip
    (pgpEncryptArmor : String → String) (pgpDecryptArmor : List Nat → Option String)
    (fromBlobOk : List Nat → Bool) (key : KeyState) (passphrase : Option String)
    (passOk : Bool) (m : JObj)
    (hwf : wfObj m = true) (hnd : (m.map Prod.fst).Nodup)
    (hascii : ∀ c ∈ (pgpEncryptArmor (dumps m)).data, c.toNat < 128)
    (hblob : fromBlobOk (encodeAscii (pgpEncryptArmor (dumps m))) = true)
    (hinv : pgpDecryptArmor (encodeAscii (pgpEncryptArmor (dumps m))) = some (dumps m))
    (hkey : key.isProt = false ∨ (passphrase.isSome = true ∧ passOk = true)) :
    (FixedRmapClient.decrypt_from_server fromBlobOk pgpDecryptArmor key passphrase
        passOk (FixedRmapClient.encrypt_to_server pgpEncryptArmor m)).1 =
      DecOutcome.ok (sortKeys m) ∧
    EqDict (sortKeys m) m := by
  constructor
  · have hb64 : b64decodeStr (b64encodeStr (encodeAscii (pgpEncryptArmor (dumps m)))) =
        some (encodeAscii (pgpEncryptArmor (dumps m))) := by
      unfold b64decodeStr b64encodeStr
      exact b64_roundtrip _ (fun x hx => by
        obtain ⟨c, hc, rfl⟩ := List.mem_map.mp hx
        have := hascii c hc
        omega)
    unfold FixedRmapClient.encrypt_to_server FixedRmapClient.decrypt_from_server
    rw [hb64]
    rcases hkey with hk | ⟨hp1, hp2⟩
    · simp [hk, hblob, hinv, loads_dumps hwf]
    · have hnone : passphrase.isNone = false := by
        cases passphrase with
        | none => simp at hp1
        | some p => rfl
      by_cases hprot : key.isProt = true
      · simp [hprot, hnone, hp2, hblob, hinv, loads_dumps hwf]
      · simp only [Bool.not_eq_true] at hprot
        simp [hprot, hblob, hinv, loads_dumps hwf]
  · intro k
    have hn' : ((sortKeys m).map Prod.fst).Nodup :=
      (((List.perm_insertionSort
        (fun p q : String × JVal => p.1 ≤ q.1) m).map Prod.fst).nodup_iff).mpr hnd
    exact lookupJ_perm (List.perm_insertionSort _ m) hn' k

theorem rmap_c2_witness :
    (FixedRmapClient.decrypt_from_server wFromBlobOk wPgpDec wKey none false
        (FixedRmapClient.encrypt_to_server wPgpEnc wMsg1)).1 =
      DecOutcome.ok (sortKeys wMsg1) ∧
    EqDict (sortKeys wMsg1) wMsg1 :=
  rmap_c2_seal_open_roundtrip wPgpEnc wPgpDec wFromBlobOk wKey none false wMsg1
    (by decide) (by decide) (by decide) (by decide) (by decide) (Or.inl rfl)
